import Mathlib

/-!
Verification of the access layer of the Coinbase Advanced Trade MCP
repository: the token minter (`auth/jwt_generator.py`) and the request
executor (`core/coinbase_requests_client.py`), shallowly embedded in Lean.

Machine strings are Lean `String`s, bytes are `Nat` values below 256,
time is seconds since the epoch as a `Nat`, and the two effectful
primitives of the source — the wall clock and the cryptographic nonce —
are passed in as explicit arguments.  The Ed25519 signing primitive
(`nacl.signing.SigningKey.sign`) is an external library call and is
modelled as an explicit function parameter from (seed bytes, message
bytes) to signature bytes.
-/

namespace CoinbaseMCP

/-! ## JSON values and `json.dumps`

The source serializes Python dicts with `json.dumps` (default compact
separators for the token, `indent=2` for the diagnostic prints).  Only
strings, non-negative integers, `None` and flat objects occur. -/

inductive Json where
  | null : Json
  | str : String → Json
  | num : Nat → Json
  | obj : List (String × Json) → Json

/-- Hex digit characters used by the `\uXXXX` escapes of `json.dumps`. -/
def hexDigit (n : Nat) : Char := "0123456789abcdef".data.getD n '0'

def hex4 (n : Nat) : List Char :=
  [hexDigit (n / 4096 % 16), hexDigit (n / 256 % 16), hexDigit (n / 16 % 16), hexDigit (n % 16)]

/-- Escape one character the way `json.dumps` (default `ensure_ascii=True`)
does: `"` and `\` get a backslash, the five short control escapes are used
where they exist, every other character outside `0x20..0x7e` becomes
`\uXXXX` (a surrogate pair above the BMP). -/
def jsonEscapeChar (c : Char) : List Char :=
  if c = '"' then ['\\', '"']
  else if c = '\\' then ['\\', '\\']
  else if c = Char.ofNat 8 then ['\\', 'b']
  else if c = Char.ofNat 9 then ['\\', 't']
  else if c = Char.ofNat 10 then ['\\', 'n']
  else if c = Char.ofNat 12 then ['\\', 'f']
  else if c = Char.ofNat 13 then ['\\', 'r']
  else if c.toNat < 32 ∨ 126 < c.toNat then
    if c.toNat < 65536 then '\\' :: 'u' :: hex4 c.toNat
    else '\\' :: 'u' :: hex4 (55296 + (c.toNat - 65536) / 1024) ++
         '\\' :: 'u' :: hex4 (56320 + (c.toNat - 65536) % 1024)
  else [c]

def jsonEscape (s : String) : String := String.mk (s.data.flatMap jsonEscapeChar)

mutual

/-- Model of `json.dumps(x)` with the default separators (`", "` / `": "`). -/
def dumps : Json → String
  | .null => "null"
  | .str s => "\"" ++ jsonEscape s ++ "\""
  | .num n => toString n
  | .obj kvs => "\x7b" ++ dumpsPairs kvs ++ "\x7d"

def dumpsPairs : List (String × Json) → String
  | [] => ""
  | [(k, v)] => "\"" ++ jsonEscape k ++ "\": " ++ dumps v
  | (k, v) :: rest => "\"" ++ jsonEscape k ++ "\": " ++ dumps v ++ ", " ++ dumpsPairs rest

end

def indentSpaces (n : Nat) : String := String.mk (List.replicate n ' ')

mutual

/-- Model of `json.dumps(x, indent=2)` at nesting level `lvl`, as used by the
diagnostic prints of `build_jwt`. -/
def dumpsIndent : Nat → Json → String
  | _, .null => "null"
  | _, .str s => "\"" ++ jsonEscape s ++ "\""
  | _, .num n => toString n
  | _, .obj [] => "\x7b\x7d"
  | lvl, .obj (kv :: kvs) =>
      "\x7b\n" ++ dumpsIndentPairs (lvl + 2) (kv :: kvs) ++ "\n" ++ indentSpaces lvl ++ "\x7d"

def dumpsIndentPairs : Nat → List (String × Json) → String
  | _, [] => ""
  | lvl, [(k, v)] => indentSpaces lvl ++ "\"" ++ jsonEscape k ++ "\": " ++ dumpsIndent lvl v
  | lvl, (k, v) :: rest =>
      indentSpaces lvl ++ "\"" ++ jsonEscape k ++ "\": " ++ dumpsIndent lvl v ++ ",\n" ++
      dumpsIndentPairs lvl rest

end

/-! ## UTF-8 encoding (model of Python `str.encode()`) -/

def utf8EncodeCharNat (c : Char) : List Nat :=
  if c.toNat < 128 then [c.toNat]
  else if c.toNat < 2048 then [192 + c.toNat / 64, 128 + c.toNat % 64]
  else if c.toNat < 65536 then
    [224 + c.toNat / 4096, 128 + c.toNat / 64 % 64, 128 + c.toNat % 64]
  else
    [240 + c.toNat / 262144, 128 + c.toNat / 4096 % 64, 128 + c.toNat / 64 % 64,
     128 + c.toNat % 64]

def utf8Bytes (s : String) : List Nat := s.data.flatMap utf8EncodeCharNat

/-! ## base64url without padding (`base64.urlsafe_b64encode(data).rstrip(b"=")`) -/

def b64urlAlphabet : List Char :=
  "ABCDEFGHIJKLMNOPQRSTUVWXYZabcdefghijklmnopqrstuvwxyz0123456789-_".data

def b64Char (n : Nat) : Char := b64urlAlphabet.getD n 'A'

def b64ValAux : List Char → Nat → Char → Option Nat
  | [], _, _ => none
  | a :: rest, i, c => if a = c then some i else b64ValAux rest (i + 1) c

def b64Val (c : Char) : Option Nat := b64ValAux b64urlAlphabet 0 c

def base64urlEncodeChars : List Nat → List Char
  | [] => []
  | [b1] => [b64Char (b1 / 4), b64Char (b1 % 4 * 16)]
  | [b1, b2] => [b64Char (b1 / 4), b64Char (b1 % 4 * 16 + b2 / 16), b64Char (b2 % 16 * 4)]
  | b1 :: b2 :: b3 :: rest =>
      b64Char (b1 / 4) :: b64Char (b1 % 4 * 16 + b2 / 16) ::
      b64Char (b2 % 16 * 4 + b3 / 64) :: b64Char (b3 % 64) :: base64urlEncodeChars rest

/-- Model of `base64url_encode` from `auth/jwt_generator.py`: urlsafe base64
with the `=` padding stripped. -/
def base64urlEncode (bs : List Nat) : String := String.mk (base64urlEncodeChars bs)

def base64urlDecodeChars : List Char → Option (List Nat)
  | [] => some []
  | [_] => none
  | [c1, c2] =>
      match b64Val c1, b64Val c2 with
      | some v1, some v2 => some [v1 * 4 + v2 / 16]
      | _, _ => none
  | [c1, c2, c3] =>
      match b64Val c1, b64Val c2, b64Val c3 with
      | some v1, some v2, some v3 => some [v1 * 4 + v2 / 16, v2 % 16 * 16 + v3 / 4]
      | _, _, _ => none
  | c1 :: c2 :: c3 :: c4 :: rest =>
      match b64Val c1, b64Val c2, b64Val c3, b64Val c4, base64urlDecodeChars rest with
      | some v1, some v2, some v3, some v4, some bs =>
          some ((v1 * 4 + v2 / 16) :: (v2 % 16 * 16 + v3 / 4) :: (v3 % 4 * 64 + v4) :: bs)
      | _, _, _, _, _ => none

def base64urlDecode (s : String) : Option (List Nat) := base64urlDecodeChars s.data

/-! ## Standard base64 decoding (`base64.b64decode`, used on the key blob) -/

def stdB64Alphabet : List Char :=
  "ABCDEFGHIJKLMNOPQRSTUVWXYZabcdefghijklmnopqrstuvwxyz0123456789+/".data

def stdB64Val (c : Char) : Option Nat := b64ValAux stdB64Alphabet 0 c

/-- Model of `base64.b64decode` on a well-formed input: four-character
groups, the final group optionally padded with one or two `=`; anything
else (wrong length, bad character) is a decoding error, which in Python
is a raised `binascii.Error`. -/
def stdB64DecodeChars : List Char → Option (List Nat)
  | [] => some []
  | c1 :: c2 :: c3 :: c4 :: rest =>
      if rest.isEmpty then
        if c3 = '=' ∧ c4 = '=' then
          match stdB64Val c1, stdB64Val c2 with
          | some v1, some v2 => some [v1 * 4 + v2 / 16]
          | _, _ => none
        else if c4 = '=' then
          match stdB64Val c1, stdB64Val c2, stdB64Val c3 with
          | some v1, some v2, some v3 =>
              some [v1 * 4 + v2 / 16, v2 % 16 * 16 + v3 / 4]
          | _, _, _ => none
        else
          match stdB64Val c1, stdB64Val c2, stdB64Val c3, stdB64Val c4 with
          | some v1, some v2, some v3, some v4 =>
              some [v1 * 4 + v2 / 16, v2 % 16 * 16 + v3 / 4, v3 % 4 * 64 + v4]
          | _, _, _, _ => none
      else
        match stdB64Val c1, stdB64Val c2, stdB64Val c3, stdB64Val c4,
            stdB64DecodeChars rest with
        | some v1, some v2, some v3, some v4, some bs =>
            some ((v1 * 4 + v2 / 16) :: (v2 % 16 * 16 + v3 / 4) :: (v3 % 4 * 64 + v4) :: bs)
        | _, _, _, _, _ => none
  | _ => none

def stdB64Decode (s : String) : Option (List Nat) := stdB64DecodeChars s.data

/-! ## The token minter (`auth/jwt_generator.py`)

`KEY_ID` and `PRIVATE_KEY_BASE64` are read once from the environment with
`os.getenv`, which yields `None` when the variable is absent; the pair is
modelled as a `JwtEnv`.  The wall clock (`int(time.time())`), the random
nonce (`secrets.token_hex(16)`) and the Ed25519 primitive
(`SigningKey(seed).sign(msg).signature`) are explicit parameters. -/

structure JwtEnv where
  keyId : Option String
  privateKeyBase64 : Option String

/-- The exceptions the mint path can raise: `TypeError` from
`base64.b64decode(None)`, `binascii.Error` from a malformed blob, and the
`nacl` exception from a seed that is not exactly 32 bytes long.  None of
them is a typed `ConfigurationError`; the source has no such class. -/
inductive JwtError where
  | missingKeyMaterial : JwtError
  | invalidBase64 : JwtError
  | badSeedLength : JwtError

/-- A Python value that is either a string or `None`, as placed in a JSON
document by `json.dumps` (absent `KEY_ID` serializes as `null`). -/
def jsonOfOptStr : Option String → Json
  | none => Json.null
  | some s => Json.str s

/-- The header dict built by `build_jwt`, in source order:
`alg`, `kid`, `nonce`, `typ`. -/
def jwtHeaderJson (keyId : Option String) (nonce : String) : Json :=
  Json.obj [("alg", Json.str "EdDSA"), ("kid", jsonOfOptStr keyId),
            ("nonce", Json.str nonce), ("typ", Json.str "JWT")]

/-- The claim dict built by `build_jwt`, in source order:
`iss`, `sub`, `nbf`, `exp`, `uri`. -/
def jwtPayloadJson (keyId : Option String) (now : Nat) (uri : String) : Json :=
  Json.obj [("iss", Json.str "cdp"), ("sub", jsonOfOptStr keyId),
            ("nbf", Json.num now), ("exp", Json.num (now + 120)),
            ("uri", Json.str uri)]

/-- The banner printed by `build_jwt` before the header and payload dumps. -/
def jwtBanner : String := "[🔐 JWT Created: Coinbase Compatible — Raw Key ID Mode]"

/-- Model of `build_jwt(method, path, host)`.  On success it returns the
three-segment token together with the list of lines the source prints to
standard output; a raised exception is an `Except.error`. -/
def build_jwt (env : JwtEnv) (sign : List Nat → List Nat → List Nat)
    (now : Nat) (nonce : String)
    (method : String := "GET") (path : String := "/api/v3/brokerage/accounts")
    (host : String := "api.coinbase.com") : Except JwtError (String × List String) :=
  let uri := method.toUpper ++ " " ++ host ++ path
  let header := jwtHeaderJson env.keyId nonce
  let payload := jwtPayloadJson env.keyId now uri
  let header_b64 := base64urlEncode (utf8Bytes (dumps header))
  let payload_b64 := base64urlEncode (utf8Bytes (dumps payload))
  let signing_input := utf8Bytes (header_b64 ++ "." ++ payload_b64)
  match env.privateKeyBase64 with
  | none => Except.error JwtError.missingKeyMaterial
  | some pk =>
    match stdB64Decode pk with
    | none => Except.error JwtError.invalidBase64
    | some blob =>
      let key_bytes := blob.take 32
      if key_bytes.length = 32 then
        let signature := sign key_bytes signing_input
        let signature_b64 := base64urlEncode signature
        let jwt_token := header_b64 ++ "." ++ payload_b64 ++ "." ++ signature_b64
        Except.ok (jwt_token,
          [jwtBanner,
           "Header: " ++ dumpsIndent 0 header,
           "Payload: " ++ dumpsIndent 0 payload])
      else Except.error JwtError.badSeedLength

/-- Whether the configured key material is absent or malformed: missing
environment variable, undecodable base64, or fewer than 32 decoded bytes. -/
def keyMaterialBad (env : JwtEnv) : Bool :=
  match env.privateKeyBase64 with
  | none => true
  | some pk =>
    match stdB64Decode pk with
    | none => true
    | some blob => decide (blob.length < 32)

/-- The printed-output component of a mint result (empty when the mint
raised before reaching the prints). -/
def printedOf : Except JwtError (String × List String) → List String
  | Except.ok tp => tp.2
  | Except.error _ => []

/-! ## The request executor (`core/coinbase_requests_client.py`)

A `session.get/post/put/delete` call either hands back a response object
(status, reason, text, and — when `response.json()` would succeed — the
decoded body) or raises a transport-level `requests` exception such as a
connection error; both are modelled by `HttpResult`.  The transport is a
function from the header list actually sent to an `HttpResult`. -/

/-- The normalized result shape of the request layer: decoded JSON body on
success, or the dict built in the `except HTTPError` arm. -/
inductive Outcome where
  | success : Json → Outcome
  | err : (error : String) → (status_code : Nat) → (body : String) → Outcome

inductive HttpResult where
  | resp : (status : Nat) → (reason : String) → (text : String) →
      (jsonBody : Option Json) → HttpResult
  | connError : HttpResult

/-- Exceptions a request-layer call can let escape to its caller. -/
inductive PyExn where
  | jwtExn : JwtError → PyExn
  | jsonDecodeError : PyExn
  | connectionError : PyExn

/-- The message of `requests.exceptions.HTTPError` as produced by
`Response.raise_for_status`. -/
def httpErrorStr (status : Nat) (reason url : String) : String :=
  toString status ++ (if status < 500 then " Client Error: " else " Server Error: ") ++
  reason ++ " for url: " ++ url

/-- The `try: raise_for_status; return response.json()` / `except HTTPError`
block shared verbatim by `_get`, `_post`, `_put` and `_delete`.
`raise_for_status` raises exactly for statuses in 400..599, and that raise
is the only exception the block catches; a body that fails to parse as
JSON (`jsonBody = none`) raises an uncaught `JSONDecodeError`, and a
transport failure propagates as raised by `session.<verb>`. -/
def handleResponse (url : String) (r : HttpResult) : Except PyExn Outcome :=
  match r with
  | HttpResult.resp status reason text jsonBody =>
    if 400 ≤ status ∧ status < 600 then
      Except.ok (Outcome.err (httpErrorStr status reason url) status text)
    else
      match jsonBody with
      | some j => Except.ok (Outcome.success j)
      | none => Except.error PyExn.jsonDecodeError
  | HttpResult.connError => Except.error PyExn.connectionError

/-- The private-endpoint header dict: `Authorization: Bearer <jwt>` plus
`Content-Type: application/json`. -/
def _headersList (jwt : String) : List (String × String) :=
  [("Authorization", "Bearer " ++ jwt), ("Content-Type", "application/json")]

/-- Model of `_headers(method, path)`: mint a token for the call and wrap
it in the header dict; a mint failure propagates as a raised exception. -/
def _headers (env : JwtEnv) (sign : List Nat → List Nat → List Nat)
    (now : Nat) (nonce : String) (method path : String) :
    Except PyExn (List (String × String)) :=
  match build_jwt env sign now nonce method path "api.coinbase.com" with
  | Except.ok tp => Except.ok (_headersList tp.1)
  | Except.error e => Except.error (PyExn.jwtExn e)

/-- Model of `_public_headers()`: content type plus the cache-busting
directive, with no `Authorization` entry. -/
def _public_headers : List (String × String) :=
  [("Content-Type", "application/json"), ("Cache-Control", "no-cache")]

/-- Model of `_get(url, path, params, is_public)`.  Returns the header
list that was sent together with the normalized outcome; an
`Except.error` is an exception raised to the caller. -/
def _get (env : JwtEnv) (sign : List Nat → List Nat → List Nat) (now : Nat)
    (nonce : String) (transport : List (String × String) → HttpResult)
    (url path : String) (isPublic : Bool) :
    Except PyExn (List (String × String) × Outcome) :=
  match (if isPublic then Except.ok _public_headers
         else _headers env sign now nonce "GET" path) with
  | Except.error e => Except.error e
  | Except.ok headers =>
    match handleResponse url (transport headers) with
    | Except.error e => Except.error e
    | Except.ok outcome => Except.ok (headers, outcome)

/-- Model of `_post(url, path, data)`. -/
def _post (env : JwtEnv) (sign : List Nat → List Nat → List Nat) (now : Nat)
    (nonce : String) (transport : List (String × String) → HttpResult)
    (url path : String) : Except PyExn (List (String × String) × Outcome) :=
  match _headers env sign now nonce "POST" path with
  | Except.error e => Except.error e
  | Except.ok headers =>
    match handleResponse url (transport headers) with
    | Except.error e => Except.error e
    | Except.ok outcome => Except.ok (headers, outcome)

/-- Model of `_put(url, path, data)`. -/
def _put (env : JwtEnv) (sign : List Nat → List Nat → List Nat) (now : Nat)
    (nonce : String) (transport : List (String × String) → HttpResult)
    (url path : String) : Except PyExn (List (String × String) × Outcome) :=
  match _headers env sign now nonce "PUT" path with
  | Except.error e => Except.error e
  | Except.ok headers =>
    match handleResponse url (transport headers) with
    | Except.error e => Except.error e
    | Except.ok outcome => Except.ok (headers, outcome)

/-- Model of `_delete(url, path, data)`. -/
def _delete (env : JwtEnv) (sign : List Nat → List Nat → List Nat) (now : Nat)
    (nonce : String) (transport : List (String × String) → HttpResult)
    (url path : String) : Except PyExn (List (String × String) × Outcome) :=
  match _headers env sign now nonce "DELETE" path with
  | Except.error e => Except.error e
  | Except.ok headers =>
    match handleResponse url (transport headers) with
    | Except.error e => Except.error e
    | Except.ok outcome => Except.ok (headers, outcome)

/-! ## Retry policy of the shared session

The source configures the shared `requests.Session` with
`Retry(total=3, backoff_factor=0.3, status_forcelist=[429, 500, 502, 503, 504])`
(lines 12–14).  The loop that interprets this configuration lives in
urllib3, outside this repository, so it is modelled from the spec:
up to 3 attempts total per call, a retry only on a forcelisted status or
a transient connection failure, and a backoff delay of
`0.3 * 2^(attempt-1)` seconds before the retry that follows attempt
number `attempt`.  Delays are tracked in milliseconds. -/

/-- The `status_forcelist` of the source configuration. -/
def RETRY_STATUSES : List Nat := [429, 500, 502, 503, 504]

/-- Modelled from the spec: "up to 3 attempts total per call". -/
def MAX_ATTEMPTS : Nat := 3

/-- Modelled from the spec: backoff delay `0.3 * 2^(attempt-1)` seconds,
expressed in milliseconds. -/
def backoffDelayMs (attempt : Nat) : Nat := 300 * 2 ^ (attempt - 1)

/-- One attempt as seen by the retry loop: a response from the wire, or a
transient connection failure. -/
inductive AttemptResult where
  | resp : (status : Nat) → (reason : String) → (text : String) →
      (jsonBody : Option Json) → AttemptResult
  | connFail : AttemptResult

/-- Modelled from the spec: a retry is triggered only by a forcelisted
status or a transient connection failure. -/
def isRetryable : AttemptResult → Bool
  | AttemptResult.resp status _ _ _ => RETRY_STATUSES.contains status
  | AttemptResult.connFail => true

/-- Modelled from the spec: the retry loop.  `attempt` is the 1-based
number of the attempt about to run and `retriesLeft` the number of
retries the policy still allows; the returned triple is the final
attempt's result, the total number of attempts made, and the list of
backoff delays slept (in milliseconds, in order). -/
def executeFrom (transport : Nat → AttemptResult) :
    Nat → Nat → List Nat → AttemptResult × Nat × List Nat
  | attempt, 0, delays => (transport attempt, attempt, delays)
  | attempt, r + 1, delays =>
    let res := transport attempt
    if isRetryable res then
      executeFrom transport (attempt + 1) r (delays ++ [backoffDelayMs attempt])
    else (res, attempt, delays)

/-- Modelled from the spec: execute one logical call through the retrying
session, starting at attempt 1 with `MAX_ATTEMPTS - 1` retries available. -/
def executeSession (transport : Nat → AttemptResult) : AttemptResult × Nat × List Nat :=
  executeFrom transport 1 (MAX_ATTEMPTS - 1) []

def toHttpResult : AttemptResult → HttpResult
  | AttemptResult.resp s r t j => HttpResult.resp s r t j
  | AttemptResult.connFail => HttpResult.connError

/-- A public `_get` issued through the retrying session: the final attempt
result flows into the shared response-normalization block. -/
def executeGet (url : String) (transport : Nat → AttemptResult) : Except PyExn Outcome :=
  handleResponse url (toHttpResult (executeSession transport).1)

/-! ## Pagination (`list_accounts`, lines 77–95)

A page is the part of the decoded result dict the loop reads: the
`accounts` entry when present, the `cursor` entry, and the truthiness of
the `has_next` entry (`result.get("has_next")` is falsy when the key is
absent, `False`, or `None`).  The upstream is a function from the fetch
index and the cursor parameter sent to the page returned. -/

structure Page where
  accounts : Option (List Json)
  cursor : Option String
  has_next : Bool

/-- Python truthiness of the `cursor` loop variable: `if cursor:` adds the
parameter only when the cursor is present and non-empty. -/
def cursorParam : Option String → Option String
  | none => none
  | some s => if s = "" then none else some s

/-- The `while True:` accumulation loop of `list_accounts`, indexed by the
remaining `fuel`: `none` means the loop is still running after `fuel`
iterations (the source loop has no bound of its own).  On a `break` it
returns the accumulated accounts together with the number of fetches
performed. -/
def list_accounts_loop (fetch : Nat → Option String → Page) :
    Nat → Nat → Option String → List Json → Option (List Json × Nat)
  | 0, _, _, _ => none
  | fuel + 1, i, cursor, acc =>
    let page := fetch i (cursorParam cursor)
    match page.accounts with
    | none => some (acc, i + 1)
    | some items =>
      if page.has_next then
        list_accounts_loop fetch fuel (i + 1) page.cursor (acc ++ items)
      else some (acc ++ items, i + 1)

/-- Model of `list_accounts`: start with no cursor and an empty
accumulator. -/
def list_accounts (fetch : Nat → Option String → Page) (fuel : Nat) :
    Option (List Json × Nat) :=
  list_accounts_loop fetch fuel 0 none []

/-- The page the loop observes at fetch index `i`, chaining cursors the
way the loop does. -/
def pageAt (fetch : Nat → Option String → Page) : Nat → Page
  | 0 => fetch 0 none
  | i + 1 => fetch (i + 1) (cursorParam (pageAt fetch i).cursor)

/-- The cursor loop variable in force when fetch `i` is issued. -/
def prevCursor (fetch : Nat → Option String → Page) : Nat → Option String
  | 0 => none
  | i + 1 => (pageAt fetch i).cursor

/-- An upstream runs the loop forever when no finite iteration budget
suffices for it to reach a `break`. -/
def neverReturns (fetch : Nat → Option String → Page) : Prop :=
  ∀ fuel, list_accounts fetch fuel = none

/-! ## Supporting lemmas about the token minter -/

/-- The serialized header bytes of a mint call. -/
def jwtHeaderBytes (keyId : Option String) (nonce : String) : List Nat :=
  utf8Bytes (dumps (jwtHeaderJson keyId nonce))

/-- The serialized claim-set bytes of a mint call. -/
def jwtPayloadBytes (keyId : Option String) (now : Nat) (uri : String) : List Nat :=
  utf8Bytes (dumps (jwtPayloadJson keyId now uri))

/-- The `resource-uri` claim value: upper-cased method, host, path. -/
def jwtUri (method host path : String) : String :=
  method.toUpper ++ " " ++ host ++ path

/-- The signing input of a mint call: `encoded(header) "." encoded(claims)`
as UTF-8 bytes. -/
def jwtSigningInput (keyId : Option String) (nonce : String) (now : Nat)
    (uri : String) : List Nat :=
  utf8Bytes (base64urlEncode (jwtHeaderBytes keyId nonce) ++ "." ++
             base64urlEncode (jwtPayloadBytes keyId now uri))

/-! ## Concrete fixtures used by witnesses and counterexamples -/

/-- Standard base64 of 32 zero bytes (a valid Ed25519 seed blob). -/
def key32B64 : String := "AAAAAAAAAAAAAAAAAAAAAAAAAAAAAAAAAAAAAAAAAAA="

/-- Standard base64 of 48 zero bytes (an over-long key blob whose first 32
decoded bytes agree with `key32B64`). -/
def key48B64 : String := "AAAAAAAAAAAAAAAAAAAAAAAAAAAAAAAAAAAAAAAAAAAAAAAAAAAAAAAAAAAAAAAA"

def env0 : JwtEnv := ⟨some "k", some key32B64⟩

def envNoKid : JwtEnv := ⟨none, some key32B64⟩

def env48 : JwtEnv := ⟨some "k", some key48B64⟩

/-- A stand-in deterministic signing primitive producing a 64-byte
signature, the length real Ed25519 produces. -/
def sign0 : List Nat → List Nat → List Nat := fun _ _ => List.replicate 64 0

/-- The token minted from the `env0` fixture at time 0 with nonce "n". -/
def tok0 : String :=
  match build_jwt env0 sign0 0 "n" "GET" "/x" "api.coinbase.com" with
  | Except.ok tp => tp.1
  | Except.error _ => ""

/-- The lines printed by the `env0` fixture mint. -/
def printed0 : List String :=
  match build_jwt env0 sign0 0 "n" "GET" "/x" "api.coinbase.com" with
  | Except.ok tp => tp.2
  | Except.error _ => []

/-! ## Claims C2 and C3 -/

/-- A mocked transport that answers 503 on attempts 1 and 2 and succeeds
with a 200 JSON response on attempt 3. -/
def mock503 : Nat → AttemptResult := fun k =>
  if k ≤ 2 then AttemptResult.resp 503 "Service Unavailable" "" none
  else AttemptResult.resp 200 "OK" "\x7b\x7d" (some (Json.obj []))

/-- A mocked transport that always answers 404. -/
def t404 : Nat → AttemptResult := fun _ =>
  AttemptResult.resp 404 "Not Found" "nf" none

/-! ## Claims C7 and C8 -/

/-- The two-page mock of the spec: page 0 has items 1 and 2 with a next
cursor and `has_next = true`; page 1 has item 3 and `has_next = false`. -/
def mockPages : Nat → Option String → Page := fun i _ =>
  if i = 0 then ⟨some [Json.num 1, Json.num 2], some "a", true⟩
  else ⟨some [Json.num 3], none, false⟩

/-- An upstream that always reports more pages. -/
def badFetch : Nat → Option String → Page := fun _ _ =>
  ⟨some [Json.num 0], none, true⟩

/-! ## Theorems -/

theorem utf8EncodeCharNat_lt (c : Char) : ∀ b ∈ utf8EncodeCharNat c, b < 256 := by
  intro b hb
  have hvalid : c.toNat < 1114112 := by
    have h := c.valid
    rcases h with h | h
    · exact Nat.lt_trans h (by decide)
    · exact h.2
  unfold utf8EncodeCharNat at hb
  split at hb
  · simp only [List.mem_cons, List.not_mem_nil, or_false] at hb
    omega
  · split at hb
    · simp only [List.mem_cons, List.not_mem_nil, or_false] at hb
      rcases hb with rfl | rfl <;> omega
    · split at hb
      · simp only [List.mem_cons, List.not_mem_nil, or_false] at hb
        rcases hb with rfl | rfl | rfl <;> omega
      · simp only [List.mem_cons, List.not_mem_nil, or_false] at hb
        rcases hb with rfl | rfl | rfl | rfl <;> omega

theorem utf8Bytes_lt (s : String) : ∀ b ∈ utf8Bytes s, b < 256 := by
  intro b hb
  rcases List.mem_flatMap.mp hb with ⟨c, _, hc⟩
  exact utf8EncodeCharNat_lt c b hc

theorem b64Val_b64Char : ∀ n, n < 64 → b64Val (b64Char n) = some n := by decide

theorem b64urlAlphabet_length : b64urlAlphabet.length = 64 := by decide

theorem b64Char_ne_dot (n : Nat) : b64Char n ≠ '.' := by
  by_cases h : n < 64
  · exact (by decide : ∀ m, m < 64 → b64Char m ≠ '.') n h
  · unfold b64Char
    rw [List.getD_eq_default _ _ (by rw [b64urlAlphabet_length]; omega)]
    decide

theorem b64Char_ne_pad (n : Nat) : b64Char n ≠ '=' := by
  by_cases h : n < 64
  · exact (by decide : ∀ m, m < 64 → b64Char m ≠ '=') n h
  · unfold b64Char
    rw [List.getD_eq_default _ _ (by rw [b64urlAlphabet_length]; omega)]
    decide

theorem mem_base64urlEncodeChars :
    ∀ (bs : List Nat) (c : Char), c ∈ base64urlEncodeChars bs → ∃ n, c = b64Char n
  | [], c, h => by simp [base64urlEncodeChars] at h
  | [b1], c, h => by
      simp only [base64urlEncodeChars, List.mem_cons, List.mem_singleton,
        List.not_mem_nil, or_false] at h
      rcases h with h | h <;> exact ⟨_, h⟩
  | [b1, b2], c, h => by
      simp only [base64urlEncodeChars, List.mem_cons, List.mem_singleton,
        List.not_mem_nil, or_false] at h
      rcases h with h | h | h <;> exact ⟨_, h⟩
  | b1 :: b2 :: b3 :: b4 :: rest, c, h => by
      simp only [base64urlEncodeChars, List.mem_cons] at h
      rcases h with h | h | h | h | h
      · exact ⟨_, h⟩
      · exact ⟨_, h⟩
      · exact ⟨_, h⟩
      · exact ⟨_, h⟩
      · exact mem_base64urlEncodeChars (b4 :: rest) c h
  | [b1, b2, b3], c, h => by
      simp only [base64urlEncodeChars, List.mem_cons, List.not_mem_nil, or_false] at h
      rcases h with h | h | h | h <;> exact ⟨_, h⟩

theorem base64urlEncodeChars_ne_dot (bs : List Nat) (c : Char)
    (h : c ∈ base64urlEncodeChars bs) : c ≠ '.' := by
  rcases mem_base64urlEncodeChars bs c h with ⟨n, rfl⟩
  exact b64Char_ne_dot n

theorem base64urlEncodeChars_ne_pad (bs : List Nat) (c : Char)
    (h : c ∈ base64urlEncodeChars bs) : c ≠ '=' := by
  rcases mem_base64urlEncodeChars bs c h with ⟨n, rfl⟩
  exact b64Char_ne_pad n

theorem base64url_roundtrip :
    ∀ (bs : List Nat), (∀ b ∈ bs, b < 256) →
      base64urlDecodeChars (base64urlEncodeChars bs) = some bs
  | [], _ => rfl
  | [b1], h => by
      have h1 : b1 < 256 := h b1 (by simp)
      simp only [base64urlEncodeChars, base64urlDecodeChars]
      rw [b64Val_b64Char _ (by omega), b64Val_b64Char _ (by omega)]
      refine congrArg some ?_
      have e1 : b1 / 4 * 4 + b1 % 4 * 16 / 16 = b1 := by omega
      rw [e1]
  | [b1, b2], h => by
      have h1 : b1 < 256 := h b1 (by simp)
      have h2 : b2 < 256 := h b2 (by simp)
      simp only [base64urlEncodeChars, base64urlDecodeChars]
      rw [b64Val_b64Char _ (by omega), b64Val_b64Char _ (by omega),
        b64Val_b64Char _ (by omega)]
      refine congrArg some ?_
      have e1 : b1 / 4 * 4 + (b1 % 4 * 16 + b2 / 16) / 16 = b1 := by omega
      have e2 : (b1 % 4 * 16 + b2 / 16) % 16 * 16 + b2 % 16 * 4 / 4 = b2 := by omega
      rw [e1, e2]
  | b1 :: b2 :: b3 :: rest, h => by
      have h1 : b1 < 256 := h b1 (by simp)
      have h2 : b2 < 256 := h b2 (by simp)
      have h3 : b3 < 256 := h b3 (by simp)
      have IH := base64url_roundtrip rest (fun b hb => h b (by simp [hb]))
      simp only [base64urlEncodeChars, base64urlDecodeChars]
      rw [b64Val_b64Char _ (by omega), b64Val_b64Char _ (by omega),
        b64Val_b64Char _ (by omega), b64Val_b64Char _ (by omega), IH]
      refine congrArg some ?_
      have e1 : b1 / 4 * 4 + (b1 % 4 * 16 + b2 / 16) / 16 = b1 := by omega
      have e2 : (b1 % 4 * 16 + b2 / 16) % 16 * 16 + (b2 % 16 * 4 + b3 / 64) / 4 = b2 := by
        omega
      have e3 : (b2 % 16 * 4 + b3 / 64) % 4 * 64 + b3 % 64 = b3 := by omega
      rw [e1, e2, e3]

theorem base64urlDecode_base64urlEncode (bs : List Nat) (h : ∀ b ∈ bs, b < 256) :
    base64urlDecode (base64urlEncode bs) = some bs :=
  base64url_roundtrip bs h

/-! ## Supporting lemmas about the retry loop -/

theorem executeFrom_attempts_ge (t : Nat → AttemptResult) :
    ∀ (r a : Nat) (d : List Nat), a ≤ (executeFrom t a r d).2.1
  | 0, a, d => Nat.le_refl a
  | r + 1, a, d => by
      simp only [executeFrom]
      split
      · exact Nat.le_trans (Nat.le_succ a) (executeFrom_attempts_ge t r (a + 1) _)
      · exact Nat.le_refl a

theorem executeFrom_attempts_le (t : Nat → AttemptResult) :
    ∀ (r a : Nat) (d : List Nat), (executeFrom t a r d).2.1 ≤ a + r
  | 0, a, d => Nat.le_refl a
  | r + 1, a, d => by
      simp only [executeFrom]
      split
      · have := executeFrom_attempts_le t r (a + 1) (d ++ [backoffDelayMs a])
        omega
      · exact Nat.le_add_right a (r + 1)

theorem executeFrom_retryable (t : Nat → AttemptResult) :
    ∀ (r a : Nat) (d : List Nat) (k : Nat),
      a ≤ k → k < (executeFrom t a r d).2.1 → isRetryable (t k) = true
  | 0, a, d, k, hak, hk => by
      simp only [executeFrom] at hk
      omega
  | r + 1, a, d, k, hak, hk => by
      simp only [executeFrom] at hk ⊢
      split at hk
      · rcases Nat.eq_or_lt_of_le hak with rfl | hlt
        · assumption
        · exact executeFrom_retryable t r (a + 1) _ k hlt hk
      · simp only at hk
        omega

theorem executeFrom_final (t : Nat → AttemptResult) :
    ∀ (r a : Nat) (d : List Nat), (executeFrom t a r d).1 = t (executeFrom t a r d).2.1
  | 0, a, d => rfl
  | r + 1, a, d => by
      simp only [executeFrom]
      split
      · exact executeFrom_final t r (a + 1) _
      · rfl

theorem executeFrom_delays (t : Nat → AttemptResult) :
    ∀ (r a : Nat) (d : List Nat),
      (executeFrom t a r d).2.2 =
        d ++ (List.range' a ((executeFrom t a r d).2.1 - a)).map backoffDelayMs
  | 0, a, d => by simp [executeFrom]
  | r + 1, a, d => by
      simp only [executeFrom]
      split
      · rw [executeFrom_delays t r (a + 1) (d ++ [backoffDelayMs a])]
        have hge := executeFrom_attempts_ge t r (a + 1) (d ++ [backoffDelayMs a])
        set m := (executeFrom t (a + 1) r (d ++ [backoffDelayMs a])).2.1 with hm
        have hrange : List.range' a (m - a) = a :: List.range' (a + 1) (m - (a + 1)) := by
          have : m - a = (m - (a + 1)) + 1 := by omega
          rw [this, List.range'_succ]
        rw [hrange]
        simp
      · simp [executeFrom]

/-! ## Supporting lemmas about the pagination loop -/

theorem fetch_prevCursor (fetch : Nat → Option String → Page) :
    ∀ i, fetch i (cursorParam (prevCursor fetch i)) = pageAt fetch i
  | 0 => rfl
  | _ + 1 => rfl

theorem list_accounts_loop_run (fetch : Nat → Option String → Page) (n : Nat)
    (h1 : ∀ i, i < n → (pageAt fetch i).accounts.isSome ∧ (pageAt fetch i).has_next = true)
    (h2 : (pageAt fetch n).accounts.isSome)
    (h3 : (pageAt fetch n).has_next = false) :
    ∀ (fuel i : Nat) (acc : List Json), i ≤ n → n - i < fuel →
      list_accounts_loop fetch fuel i (prevCursor fetch i) acc =
        some (acc ++ (List.range' i (n + 1 - i)).flatMap
          (fun j => ((pageAt fetch j).accounts).getD []), n + 1)
  | 0, _, _, _, hfuel => absurd hfuel (by omega)
  | fuel + 1, i, acc, hin, hfuel => by
      simp only [list_accounts_loop, fetch_prevCursor]
      rcases Nat.eq_or_lt_of_le hin with rfl | hlt
      · rcases Option.isSome_iff_exists.mp h2 with ⟨items, hitems⟩
        rw [hitems, h3]
        have he : i + 1 - i = 1 := by omega
        rw [he, List.range'_one]
        simp [hitems]
      · rcases h1 i hlt with ⟨hsome, hnext⟩
        rcases Option.isSome_iff_exists.mp hsome with ⟨items, hitems⟩
        rw [hitems, hnext]
        simp only [if_pos rfl]
        have hrec := list_accounts_loop_run fetch n h1 h2 h3 fuel (i + 1) (acc ++ items)
          (by omega) (by omega)
        have hpc : (pageAt fetch i).cursor = prevCursor fetch (i + 1) := rfl
        rw [hpc, hrec]
        have hrange : List.range' i (n + 1 - i) = i :: List.range' (i + 1) (n + 1 - (i + 1)) := by
          have : n + 1 - i = (n + 1 - (i + 1)) + 1 := by omega
          rw [this, List.range'_succ]
        rw [hrange]
        simp [hitems, List.append_assoc]

theorem list_accounts_loop_none (fetch : Nat → Option String → Page)
    (h : ∀ i, (pageAt fetch i).accounts.isSome ∧ (pageAt fetch i).has_next = true) :
    ∀ (fuel i : Nat) (acc : List Json),
      list_accounts_loop fetch fuel i (prevCursor fetch i) acc = none
  | 0, _, _ => rfl
  | fuel + 1, i, acc => by
      simp only [list_accounts_loop, fetch_prevCursor]
      rcases h i with ⟨hsome, hnext⟩
      rcases Option.isSome_iff_exists.mp hsome with ⟨items, hitems⟩
      rw [hitems, hnext]
      simp only [if_pos rfl]
      have hpc : (pageAt fetch i).cursor = prevCursor fetch (i + 1) := rfl
      rw [hpc]
      exact list_accounts_loop_none fetch h fuel (i + 1) (acc ++ items)

/-- Unfolding `build_jwt` when the key material is well formed: the exact
token string and the exact printed lines. -/
theorem build_jwt_ok (env : JwtEnv) (sign : List Nat → List Nat → List Nat)
    (now : Nat) (nonce : String) (method path host : String)
    (pk : String) (blob : List Nat)
    (hpk : env.privateKeyBase64 = some pk)
    (hdec : stdB64Decode pk = some blob)
    (hlen : 32 ≤ blob.length) :
    build_jwt env sign now nonce method path host =
      Except.ok
        (base64urlEncode (jwtHeaderBytes env.keyId nonce) ++ "." ++
         base64urlEncode (jwtPayloadBytes env.keyId now (jwtUri method host path)) ++ "." ++
         base64urlEncode (sign (blob.take 32)
           (jwtSigningInput env.keyId nonce now (jwtUri method host path))),
         [jwtBanner,
          "Header: " ++ dumpsIndent 0 (jwtHeaderJson env.keyId nonce),
          "Payload: " ++ dumpsIndent 0 (jwtPayloadJson env.keyId now (jwtUri method host path))]) := by
  unfold build_jwt
  rw [hpk]
  simp only
  rw [hdec]
  simp only
  rw [List.length_take, Nat.min_eq_left hlen]
  simp only [if_pos rfl]
  rfl

/-- Inversion: a successful mint implies well-formed key material and
pins down the token and the printed lines. -/
theorem build_jwt_ok_inv (env : JwtEnv) (sign : List Nat → List Nat → List Nat)
    (now : Nat) (nonce : String) (method path host : String)
    (tok : String) (printed : List String)
    (h : build_jwt env sign now nonce method path host = Except.ok (tok, printed)) :
    ∃ pk blob, env.privateKeyBase64 = some pk ∧ stdB64Decode pk = some blob ∧
      32 ≤ blob.length ∧
      tok = base64urlEncode (jwtHeaderBytes env.keyId nonce) ++ "." ++
            base64urlEncode (jwtPayloadBytes env.keyId now (jwtUri method host path)) ++ "." ++
            base64urlEncode (sign (blob.take 32)
              (jwtSigningInput env.keyId nonce now (jwtUri method host path))) ∧
      printed = [jwtBanner,
                 "Header: " ++ dumpsIndent 0 (jwtHeaderJson env.keyId nonce),
                 "Payload: " ++ dumpsIndent 0 (jwtPayloadJson env.keyId now (jwtUri method host path))] := by
  rcases hpk : env.privateKeyBase64 with _ | pk
  · rw [build_jwt, hpk] at h
    simp at h
  rcases hdec : stdB64Decode pk with _ | blob
  · rw [build_jwt, hpk] at h
    simp only at h
    rw [hdec] at h
    simp at h
  by_cases hlen : 32 ≤ blob.length
  · refine ⟨pk, blob, rfl, hdec, hlen, ?_⟩
    rw [build_jwt_ok env sign now nonce method path host pk blob hpk hdec hlen] at h
    injection h with h
    injection h with h1 h2
    exact ⟨h1.symm, h2.symm⟩
  · rw [build_jwt, hpk] at h
    simp only at h
    rw [hdec] at h
    simp only at h
    rw [List.length_take] at h
    rw [if_neg (by omega)] at h
    simp at h

/-- Every character of a base64url segment differs from the period used
as the separator, so the token really has three segments. -/
theorem jwt_token_segments (env : JwtEnv) (sign : List Nat → List Nat → List Nat)
    (now : Nat) (nonce : String) (method path host : String)
    (tok : String) (printed : List String)
    (h : build_jwt env sign now nonce method path host = Except.ok (tok, printed)) :
    ∃ s1 s2 s3 : List Char,
      tok.data = s1 ++ '.' :: (s2 ++ '.' :: s3) ∧
      '.' ∉ s1 ∧ '.' ∉ s2 ∧ '.' ∉ s3 := by
  rcases build_jwt_ok_inv env sign now nonce method path host tok printed h with
    ⟨pk, blob, _, _, _, htok, _⟩
  refine ⟨base64urlEncodeChars (jwtHeaderBytes env.keyId nonce),
          base64urlEncodeChars (jwtPayloadBytes env.keyId now (jwtUri method host path)),
          base64urlEncodeChars (sign (blob.take 32)
            (jwtSigningInput env.keyId nonce now (jwtUri method host path))), ?_, ?_, ?_, ?_⟩
  · rw [htok]
    simp only [base64urlEncode, String.data_append]
    simp [String.data_append]
  · exact fun hmem => base64urlEncodeChars_ne_dot _ _ hmem rfl
  · exact fun hmem => base64urlEncodeChars_ne_dot _ _ hmem rfl
  · exact fun hmem => base64urlEncodeChars_ne_dot _ _ hmem rfl

theorem sign0_bytes_lt (k m : List Nat) : ∀ b ∈ sign0 k m, b < 256 := by
  intro b hb
  have := List.eq_of_mem_replicate hb
  omega

/-! ## Claim C4 -/

/-- C4 counterexample: with the key-id environment variable absent but the
key material valid, `build_jwt` does not fail — it silently returns a
token (whose header will carry `kid: null`), contradicting the claim that
an absent key-id is detected at mint time. -/
theorem build_jwt_missing_key_id_succeeds :
    (build_jwt envNoKid sign0 0 "n" "GET" "/x" "api.coinbase.com").isOk = true := by decide

/-- C4 (amended): minting fails at mint time exactly when the private key
material is bad — the environment variable absent, the blob undecodable,
or fewer than 32 bytes after decoding; an absent key-id is never detected
and the failures are raw exceptions, not a typed `ConfigurationError`. -/
theorem build_jwt_error_iff_bad_key_material (env : JwtEnv)
    (sign : List Nat → List Nat → List Nat) (now : Nat) (nonce : String)
    (method path host : String) :
    (build_jwt env sign now nonce method path host).isOk = !keyMaterialBad env := by
  rcases hpk : env.privateKeyBase64 with _ | pk
  · have hbad : keyMaterialBad env = true := by simp [keyMaterialBad, hpk]
    rw [build_jwt, hpk, hbad]
    rfl
  · rcases hdec : stdB64Decode pk with _ | blob
    · have hbad : keyMaterialBad env = true := by simp [keyMaterialBad, hpk, hdec]
      rw [build_jwt, hpk]
      simp only
      rw [hdec, hbad]
      rfl
    · by_cases hlen : 32 ≤ blob.length
      · have hgood : keyMaterialBad env = false := by
          simp [keyMaterialBad, hpk, hdec]
          omega
        rw [build_jwt_ok env sign now nonce method path host pk blob hpk hdec hlen, hgood]
        rfl
      · have hbad : keyMaterialBad env = true := by
          simp [keyMaterialBad, hpk, hdec]
          omega
        rw [build_jwt, hpk]
        simp only
        rw [hdec]
        simp only
        rw [List.length_take, if_neg (by omega), hbad]
        rfl

/-! ## Claim C9 -/

/-- C9: the minted credential — in particular its signature — depends on
the decoded key blob only through its first 32 bytes: two environments
whose decoded blobs agree on the first 32 bytes (and share a key-id)
mint identically. -/
theorem signature_depends_on_first_32_bytes (env1 env2 : JwtEnv)
    (sign : List Nat → List Nat → List Nat) (now : Nat) (nonce : String)
    (method path host : String) (pk1 pk2 : String) (blob1 blob2 : List Nat)
    (hkid : env1.keyId = env2.keyId)
    (hpk1 : env1.privateKeyBase64 = some pk1)
    (hdec1 : stdB64Decode pk1 = some blob1)
    (hpk2 : env2.privateKeyBase64 = some pk2)
    (hdec2 : stdB64Decode pk2 = some blob2)
    (htrunc : blob1.take 32 = blob2.take 32) :
    build_jwt env1 sign now nonce method path host =
      build_jwt env2 sign now nonce method path host := by
  have hminlen : min 32 blob1.length = min 32 blob2.length := by
    have := congrArg List.length htrunc
    simpa [List.length_take] using this
  by_cases hlen : 32 ≤ blob1.length
  · have hlen2 : 32 ≤ blob2.length := by omega
    rw [build_jwt_ok env1 sign now nonce method path host pk1 blob1 hpk1 hdec1 hlen,
        build_jwt_ok env2 sign now nonce method path host pk2 blob2 hpk2 hdec2 hlen2,
        hkid, htrunc]
  · have hlen2 : ¬ 32 ≤ blob2.length := by omega
    rw [build_jwt, hpk1]
    simp only
    rw [hdec1]
    simp only
    rw [List.length_take, if_neg (by omega)]
    rw [build_jwt, hpk2]
    simp only
    rw [hdec2]
    simp only
    rw [List.length_take, if_neg (by omega)]

/-- C9 witness: a 32-zero-byte blob and a 48-zero-byte blob agree on their
first 32 decoded bytes, and the mints coincide. -/
theorem signature_depends_on_first_32_bytes_witness :
    build_jwt env0 sign0 0 "n" "GET" "/x" "api.coinbase.com" =
      build_jwt env48 sign0 0 "n" "GET" "/x" "api.coinbase.com" :=
  signature_depends_on_first_32_bytes env0 env48 sign0 0 "n" "GET" "/x" "api.coinbase.com"
    key32B64 key48B64 (List.replicate 32 0) (List.replicate 48 0)
    rfl rfl (by decide) rfl (by decide) (by decide)

/-! ## Claim C10 -/

/-- C10 counterexample: the `env0` mint writes to standard output — three
lines, beginning with the banner — so minting is not free of I/O. -/
theorem build_jwt_prints_output :
    printedOf (build_jwt env0 sign0 0 "n" "GET" "/x" "api.coinbase.com") ≠ [] := by decide

/-- C10 (amended): apart from its return value, a successful mint changes
no program state, but it does write exactly three diagnostic lines to
standard output: the banner, the indent-2 header JSON, and the indent-2
payload JSON. -/
theorem build_jwt_printed_lines (env : JwtEnv) (sign : List Nat → List Nat → List Nat)
    (now : Nat) (nonce : String) (method path host : String)
    (tok : String) (printed : List String)
    (h : build_jwt env sign now nonce method path host = Except.ok (tok, printed)) :
    printed = [jwtBanner,
               "Header: " ++ dumpsIndent 0 (jwtHeaderJson env.keyId nonce),
               "Payload: " ++ dumpsIndent 0 (jwtPayloadJson env.keyId now (jwtUri method host path))] := by
  rcases build_jwt_ok_inv env sign now nonce method path host tok printed h with
    ⟨_, _, _, _, _, _, hp⟩
  exact hp

/-- C10 witness: the three printed lines of the `env0` fixture mint. -/
theorem build_jwt_printed_lines_witness :
    build_jwt env0 sign0 0 "n" "GET" "/x" "api.coinbase.com" = Except.ok (tok0, printed0) ∧
    printed0 = [jwtBanner,
                "Header: " ++ dumpsIndent 0 (jwtHeaderJson (some "k") "n"),
                "Payload: " ++ dumpsIndent 0 (jwtPayloadJson (some "k") 0 (jwtUri "GET" "api.coinbase.com" "/x"))] :=
  ⟨rfl, build_jwt_printed_lines env0 sign0 0 "n" "GET" "/x" "api.coinbase.com" tok0 printed0 rfl⟩

/-! ## Claim C5 -/

/-- C5: with well-formed key material and a signature of real bytes, the
minted token is exactly three padding-free base64url segments joined by
periods; the first two decode back to the serialized header and claim
set, which contain exactly the fields `alg`/`kid`/`nonce`/`typ` and
`iss`/`sub`/`nbf`/`exp`/`uri` with `nbf = t`, `exp = t + 120`
(`exp - nbf = 120` exactly) and `uri` the upper-cased method followed by
host and path; the third decodes back to the signature bytes. -/
theorem build_jwt_token_structure (env : JwtEnv) (sign : List Nat → List Nat → List Nat)
    (now : Nat) (nonce : String) (method path host : String)
    (pk : String) (blob : List Nat)
    (hpk : env.privateKeyBase64 = some pk)
    (hdec : stdB64Decode pk = some blob)
    (hlen : 32 ≤ blob.length)
    (hsign : ∀ b ∈ sign (blob.take 32)
      (jwtSigningInput env.keyId nonce now (jwtUri method host path)), b < 256) :
    build_jwt env sign now nonce method path host =
      Except.ok
        (base64urlEncode (jwtHeaderBytes env.keyId nonce) ++ "." ++
         base64urlEncode (jwtPayloadBytes env.keyId now (jwtUri method host path)) ++ "." ++
         base64urlEncode (sign (blob.take 32)
           (jwtSigningInput env.keyId nonce now (jwtUri method host path))),
         [jwtBanner,
          "Header: " ++ dumpsIndent 0 (jwtHeaderJson env.keyId nonce),
          "Payload: " ++ dumpsIndent 0 (jwtPayloadJson env.keyId now (jwtUri method host path))]) ∧
    base64urlDecode (base64urlEncode (jwtHeaderBytes env.keyId nonce)) =
      some (jwtHeaderBytes env.keyId nonce) ∧
    base64urlDecode (base64urlEncode (jwtPayloadBytes env.keyId now (jwtUri method host path))) =
      some (jwtPayloadBytes env.keyId now (jwtUri method host path)) ∧
    base64urlDecode (base64urlEncode (sign (blob.take 32)
        (jwtSigningInput env.keyId nonce now (jwtUri method host path)))) =
      some (sign (blob.take 32)
        (jwtSigningInput env.keyId nonce now (jwtUri method host path))) ∧
    jwtHeaderBytes env.keyId nonce =
      utf8Bytes (dumps (Json.obj [("alg", Json.str "EdDSA"), ("kid", jsonOfOptStr env.keyId),
        ("nonce", Json.str nonce), ("typ", Json.str "JWT")])) ∧
    jwtPayloadBytes env.keyId now (jwtUri method host path) =
      utf8Bytes (dumps (Json.obj [("iss", Json.str "cdp"), ("sub", jsonOfOptStr env.keyId),
        ("nbf", Json.num now), ("exp", Json.num (now + 120)),
        ("uri", Json.str (method.toUpper ++ " " ++ host ++ path))])) ∧
    (now + 120) - now = 120 ∧
    (∀ c ∈ base64urlEncodeChars (jwtHeaderBytes env.keyId nonce), c ≠ '.' ∧ c ≠ '=') ∧
    (∀ c ∈ base64urlEncodeChars (jwtPayloadBytes env.keyId now (jwtUri method host path)),
       c ≠ '.' ∧ c ≠ '=') ∧
    (∀ c ∈ base64urlEncodeChars (sign (blob.take 32)
        (jwtSigningInput env.keyId nonce now (jwtUri method host path))),
       c ≠ '.' ∧ c ≠ '=') := by
  refine ⟨build_jwt_ok env sign now nonce method path host pk blob hpk hdec hlen,
    base64urlDecode_base64urlEncode _ (utf8Bytes_lt _),
    base64urlDecode_base64urlEncode _ (utf8Bytes_lt _),
    base64urlDecode_base64urlEncode _ hsign,
    rfl, rfl, by omega,
    fun c hc => ⟨base64urlEncodeChars_ne_dot _ _ hc, base64urlEncodeChars_ne_pad _ _ hc⟩,
    fun c hc => ⟨base64urlEncodeChars_ne_dot _ _ hc, base64urlEncodeChars_ne_pad _ _ hc⟩,
    fun c hc => ⟨base64urlEncodeChars_ne_dot _ _ hc, base64urlEncodeChars_ne_pad _ _ hc⟩⟩

/-- C5 witness: the structure theorem applied to the `env0` fixture. -/
theorem build_jwt_token_structure_witness :
    build_jwt env0 sign0 0 "n" "GET" "/x" "api.coinbase.com" =
      Except.ok
        (base64urlEncode (jwtHeaderBytes (some "k") "n") ++ "." ++
         base64urlEncode (jwtPayloadBytes (some "k") 0 (jwtUri "GET" "api.coinbase.com" "/x")) ++ "." ++
         base64urlEncode (sign0 ((List.replicate 32 0).take 32)
           (jwtSigningInput (some "k") "n" 0 (jwtUri "GET" "api.coinbase.com" "/x"))),
         [jwtBanner,
          "Header: " ++ dumpsIndent 0 (jwtHeaderJson (some "k") "n"),
          "Payload: " ++ dumpsIndent 0 (jwtPayloadJson (some "k") 0 (jwtUri "GET" "api.coinbase.com" "/x"))]) ∧
    base64urlDecode (base64urlEncode (jwtHeaderBytes (some "k") "n")) =
      some (jwtHeaderBytes (some "k") "n") ∧
    (0 + 120) - 0 = 120 := by
  have T := build_jwt_token_structure env0 sign0 0 "n" "GET" "/x" "api.coinbase.com" key32B64
    (List.replicate 32 0) rfl (by decide) (by decide) (fun b hb => sign0_bytes_lt _ _ b hb)
  exact ⟨T.1, T.2.1, T.2.2.2.2.2.2.1⟩

/-! ## Claim C6 -/

/-- C6: a public `_get` sends exactly the two public headers — content
type and the cache-busting directive — and no `Authorization` entry,
while a private `_get` sends `Authorization: Bearer <token>` (a
three-segment token) together with the JSON content type. -/
theorem request_header_shapes (env : JwtEnv) (sign : List Nat → List Nat → List Nat)
    (now : Nat) (nonce : String) (transport : List (String × String) → HttpResult)
    (url path : String) (tok : String) (printed : List String)
    (hmint : build_jwt env sign now nonce "GET" path "api.coinbase.com" =
      Except.ok (tok, printed)) :
    _get env sign now nonce transport url path true =
      (handleResponse url (transport _public_headers)).map (fun o => (_public_headers, o)) ∧
    _public_headers.lookup "Authorization" = none ∧
    _public_headers = [("Content-Type", "application/json"), ("Cache-Control", "no-cache")] ∧
    _get env sign now nonce transport url path false =
      (handleResponse url (transport (_headersList tok))).map (fun o => (_headersList tok, o)) ∧
    _headersList tok = [("Authorization", "Bearer " ++ tok),
                        ("Content-Type", "application/json")] ∧
    ∃ s1 s2 s3 : List Char,
      tok.data = s1 ++ '.' :: (s2 ++ '.' :: s3) ∧ '.' ∉ s1 ∧ '.' ∉ s2 ∧ '.' ∉ s3 := by
  refine ⟨?_, rfl, rfl, ?_, rfl,
    jwt_token_segments env sign now nonce "GET" path "api.coinbase.com" tok printed hmint⟩
  · cases h' : handleResponse url (transport _public_headers) <;>
      simp [_get, h', Except.map]
  · have hh : _headers env sign now nonce "GET" path = Except.ok (_headersList tok) := by
      rw [_headers, hmint]
    cases h' : handleResponse url (transport (_headersList tok)) <;>
      simp [_get, hh, h', Except.map]

/-- C6 witness: the header-shape theorem applied to the `env0` fixture
with a transport that answers 200 with body `null`. -/
theorem request_header_shapes_witness :
    _get env0 sign0 0 "n" (fun _ => HttpResult.resp 200 "OK" "null" (some Json.null))
        "u" "/x" true =
      Except.ok (_public_headers, Outcome.success Json.null) ∧
    _public_headers.lookup "Authorization" = none ∧
    _get env0 sign0 0 "n" (fun _ => HttpResult.resp 200 "OK" "null" (some Json.null))
        "u" "/x" false =
      Except.ok (_headersList tok0, Outcome.success Json.null) ∧
    _headersList tok0 = [("Authorization", "Bearer " ++ tok0),
                         ("Content-Type", "application/json")] := by
  have T := request_header_shapes env0 sign0 0 "n"
    (fun _ => HttpResult.resp 200 "OK" "null" (some Json.null)) "u" "/x" tok0 printed0 rfl
  refine ⟨?_, T.2.1, ?_, T.2.2.2.2.1⟩
  · rw [T.1]
    rfl
  · rw [T.2.2.2.1]
    rfl

/-! ## Claim C1 -/

/-- C1 counterexample: a 200 response whose body is not valid JSON makes
`_get` raise an uncaught `JSONDecodeError` — `response.json()` is inside
a `try` that catches only `requests.exceptions.HTTPError` — instead of
returning a decode-failure outcome. -/
theorem get_malformed_json_raises :
    _get env0 sign0 0 "n" (fun _ => HttpResult.resp 200 "OK" "oops" none) "u" "/x" true =
      Except.error PyExn.jsonDecodeError := rfl

/-- C1 (amended): each of `_get`, `_post`, `_put` and `_delete` returns
the decoded JSON body when the final response status is below 400 and the
body parses, and returns the structured `{error, status_code, body}`
record when the status is in 400..599; but a malformed body on a success
status raises an uncaught JSON decode error, a transport-level connection
failure propagates uncaught, and every verb function is exactly this
normalization applied to what the transport returned for the headers it
sent. -/
theorem request_layer_outcome_shapes (env : JwtEnv)
    (sign : List Nat → List Nat → List Nat) (now : Nat) (nonce : String)
    (transport : List (String × String) → HttpResult) (url path : String)
    (status : Nat) (reason text : String) (j : Json) :
    (400 ≤ status → status < 600 →
      handleResponse url (HttpResult.resp status reason text (some j)) =
        Except.ok (Outcome.err (httpErrorStr status reason url) status text)) ∧
    (400 ≤ status → status < 600 →
      handleResponse url (HttpResult.resp status reason text none) =
        Except.ok (Outcome.err (httpErrorStr status reason url) status text)) ∧
    (status < 400 →
      handleResponse url (HttpResult.resp status reason text (some j)) =
        Except.ok (Outcome.success j)) ∧
    (status < 400 →
      handleResponse url (HttpResult.resp status reason text none) =
        Except.error PyExn.jsonDecodeError) ∧
    (handleResponse url HttpResult.connError = Except.error PyExn.connectionError) ∧
    (_get env sign now nonce transport url path true =
      (handleResponse url (transport _public_headers)).map (fun o => (_public_headers, o))) ∧
    (∀ hs, _headers env sign now nonce "GET" path = Except.ok hs →
      _get env sign now nonce transport url path false =
        (handleResponse url (transport hs)).map (fun o => (hs, o))) ∧
    (∀ hs, _headers env sign now nonce "POST" path = Except.ok hs →
      _post env sign now nonce transport url path =
        (handleResponse url (transport hs)).map (fun o => (hs, o))) ∧
    (∀ hs, _headers env sign now nonce "PUT" path = Except.ok hs →
      _put env sign now nonce transport url path =
        (handleResponse url (transport hs)).map (fun o => (hs, o))) ∧
    (∀ hs, _headers env sign now nonce "DELETE" path = Except.ok hs →
      _delete env sign now nonce transport url path =
        (handleResponse url (transport hs)).map (fun o => (hs, o))) := by
  refine ⟨?_, ?_, ?_, ?_, rfl, ?_, ?_, ?_, ?_, ?_⟩
  · intro h1 h2
    simp [handleResponse, if_pos (And.intro h1 h2)]
  · intro h1 h2
    simp [handleResponse, if_pos (And.intro h1 h2)]
  · intro h1
    rw [handleResponse, if_neg (by omega)]
  · intro h1
    rw [handleResponse, if_neg (by omega)]
  · cases h' : handleResponse url (transport _public_headers) <;>
      simp [_get, h', Except.map]
  · intro hs hh
    cases h' : handleResponse url (transport hs) <;> simp [_get, hh, h', Except.map]
  · intro hs hh
    cases h' : handleResponse url (transport hs) <;> simp [_post, hh, h', Except.map]
  · intro hs hh
    cases h' : handleResponse url (transport hs) <;> simp [_put, hh, h', Except.map]
  · intro hs hh
    cases h' : handleResponse url (transport hs) <;> simp [_delete, hh, h', Except.map]

/-- C1 witness: the outcome-shape theorem instantiated at a 404 error
response, a malformed 200 response, and the `env0` fixture for the
private verbs. -/
theorem request_layer_outcome_shapes_witness :
    handleResponse "u" (HttpResult.resp 404 "Not Found" "nf" (some Json.null)) =
      Except.ok (Outcome.err (httpErrorStr 404 "Not Found" "u") 404 "nf") ∧
    handleResponse "u" (HttpResult.resp 200 "OK" "oops" none) =
      Except.error PyExn.jsonDecodeError ∧
    _get env0 sign0 0 "n" (fun _ => HttpResult.resp 200 "OK" "null" (some Json.null))
        "u" "/x" false =
      (handleResponse "u"
        ((fun _ => HttpResult.resp 200 "OK" "null" (some Json.null))
          (_headersList tok0))).map
        (fun o => (_headersList tok0, o)) := by
  have T := request_layer_outcome_shapes env0 sign0 0 "n"
    (fun _ => HttpResult.resp 200 "OK" "null" (some Json.null)) "u" "/x"
    404 "Not Found" "nf" Json.null
  have T2 := request_layer_outcome_shapes env0 sign0 0 "n"
    (fun _ => HttpResult.resp 200 "OK" "null" (some Json.null)) "u" "/x"
    200 "OK" "oops" Json.null
  exact ⟨T.1 (by decide) (by decide), T2.2.2.2.1 (by decide),
    T.2.2.2.2.2.2.1 (_headersList tok0) rfl⟩

/-- C2: every call makes at most 3 attempts; an attempt is followed by a
retry only when it was retryable (forcelisted status or connection
failure); the delays slept are exactly `0.3 * 2^(attempt-1)` seconds (in
milliseconds) for each non-final attempt; and the 503-503-200 mock
returns the decoded success body after exactly 3 attempts with
increasing delays 300ms, 600ms. -/
theorem retry_policy_three_attempts :
    (∀ t, (executeSession t).2.1 ≤ 3) ∧
    (∀ t k, 1 ≤ k → k < (executeSession t).2.1 → isRetryable (t k) = true) ∧
    (∀ t, (executeSession t).2.2 =
      (List.range' 1 ((executeSession t).2.1 - 1)).map backoffDelayMs) ∧
    executeSession mock503 =
      (AttemptResult.resp 200 "OK" "\x7b\x7d" (some (Json.obj [])), 3, [300, 600]) ∧
    executeGet "u" mock503 = Except.ok (Outcome.success (Json.obj [])) := by
  refine ⟨fun t => ?_, fun t k hk1 hk2 => ?_, fun t => ?_, rfl, rfl⟩
  · exact executeFrom_attempts_le t (MAX_ATTEMPTS - 1) 1 []
  · exact executeFrom_retryable t (MAX_ATTEMPTS - 1) 1 [] k hk1 hk2
  · have := executeFrom_delays t (MAX_ATTEMPTS - 1) 1 []
    simpa [executeSession] using this

/-- C2 witness: the retry-policy theorem evaluated on the 503-503-200
mock. -/
theorem retry_policy_three_attempts_witness :
    (executeSession mock503).2.1 ≤ 3 ∧
    isRetryable (mock503 1) = true ∧
    (executeSession mock503).2.2 =
      (List.range' 1 ((executeSession mock503).2.1 - 1)).map backoffDelayMs :=
  ⟨retry_policy_three_attempts.1 mock503,
   retry_policy_three_attempts.2.1 mock503 1 (by decide) (by decide),
   retry_policy_three_attempts.2.2.1 mock503⟩

/-- C3: a non-retryable status — any 4xx other than 429, such as 404 —
ends the call after exactly one attempt with no backoff sleeps, and the
normalization turns it into the structured error outcome. -/
theorem non_retryable_fails_first_attempt (t : Nat → AttemptResult) (url : String)
    (status : Nat) (reason text : String) (j : Option Json)
    (ht : t 1 = AttemptResult.resp status reason text j)
    (h4 : 400 ≤ status) (h5 : status < 500) (h429 : status ≠ 429) :
    executeSession t = (AttemptResult.resp status reason text j, 1, []) ∧
    executeGet url t = Except.ok (Outcome.err (httpErrorStr status reason url) status text) := by
  have hret : isRetryable (t 1) = false := by
    rw [ht]
    simp only [isRetryable, RETRY_STATUSES]
    simp [List.elem_eq_mem]
    omega
  have hsess : executeSession t = (AttemptResult.resp status reason text j, 1, []) := by
    show executeFrom t 1 2 [] = _
    simp only [executeFrom]
    rw [hret]
    simp [ht]
  refine ⟨hsess, ?_⟩
  rw [executeGet, hsess]
  cases j with
  | none =>
      show handleResponse url (HttpResult.resp status reason text none) = _
      rw [handleResponse, if_pos (by omega)]
  | some jv =>
      show handleResponse url (HttpResult.resp status reason text (some jv)) = _
      rw [handleResponse, if_pos (by omega)]

/-- C3 witness: the single-attempt theorem evaluated on the constant-404
mock. -/
theorem non_retryable_fails_first_attempt_witness :
    executeSession t404 = (AttemptResult.resp 404 "Not Found" "nf" none, 1, []) ∧
    executeGet "u" t404 =
      Except.ok (Outcome.err (httpErrorStr 404 "Not Found" "u") 404 "nf") :=
  non_retryable_fails_first_attempt t404 "u" 404 "Not Found" "nf" none rfl
    (by decide) (by decide) (by decide)

/-- C7: the accumulation loop starts with no cursor, concatenates each
page's items in arrival order, and stops with the first page whose
`has_next` is falsy, having fetched exactly `n + 1` pages. -/
theorem list_accounts_pagination (fetch : Nat → Option String → Page) (n : Nat)
    (h1 : ∀ i, i < n → (pageAt fetch i).accounts.isSome ∧ (pageAt fetch i).has_next = true)
    (h2 : (pageAt fetch n).accounts.isSome)
    (h3 : (pageAt fetch n).has_next = false)
    (fuel : Nat) (hfuel : n < fuel) :
    prevCursor fetch 0 = none ∧
    list_accounts fetch fuel =
      some ((List.range' 0 (n + 1)).flatMap
        (fun j => ((pageAt fetch j).accounts).getD []), n + 1) := by
  refine ⟨rfl, ?_⟩
  have := list_accounts_loop_run fetch n h1 h2 h3 fuel 0 [] (Nat.zero_le n) (by omega)
  simpa [list_accounts, prevCursor] using this

/-- C7 witness: on the two-page mock the loop returns the items 1, 2, 3
in order after exactly 2 fetches. -/
theorem list_accounts_pagination_witness :
    prevCursor mockPages 0 = none ∧
    list_accounts mockPages 2 = some ([Json.num 1, Json.num 2, Json.num 3], 2) := by
  have T := list_accounts_pagination mockPages 1
    (fun i hi => by
      have hi0 : i = 0 := by omega
      subst hi0
      exact ⟨rfl, rfl⟩)
    rfl rfl 2 (by decide)
  refine ⟨T.1, ?_⟩
  rw [T.2]
  rfl

/-- C8 counterexample: with an upstream that always answers
`has_next = true`, the `list_accounts` loop never reaches a `break` within
any iteration budget — there is no defensive maximum page count and no
`PaginationExhaustedError` in the source. -/
theorem list_accounts_never_stops : neverReturns badFetch := fun fuel =>
  list_accounts_loop_none badFetch
    (fun i => by cases i <;> exact ⟨rfl, rfl⟩) fuel 0 []

/-- C8 (amended): the loop terminates only when some page lacks the
`accounts` key or reports a falsy `has_next`; an upstream that always
returns accounts with `has_next = true` keeps it running forever, with no
defensive page cap and no `PaginationExhaustedError`. -/
theorem list_accounts_unbounded (fetch : Nat → Option String → Page)
    (h : ∀ i, (pageAt fetch i).accounts.isSome ∧ (pageAt fetch i).has_next = true) :
    neverReturns fetch := fun fuel =>
  list_accounts_loop_none fetch h fuel 0 []

/-- C8 witness: after 1000 iterations on the always-more upstream the loop
is still running. -/
theorem list_accounts_unbounded_witness : list_accounts badFetch 1000 = none :=
  list_accounts_unbounded badFetch
    (fun i => by cases i <;> exact ⟨rfl, rfl⟩) 1000

end CoinbaseMCP
